import Mathlib

/-!
# Verification development for the Asterix charts repository

Shallow embedding, in Lean 4, of the chart pipeline implemented by
`src/chart_generator.py`, `src/headless_charts.py`, `src/app.py`,
`src/unnamed/part_000` (a second Flask service variant) and
`src/chart_service.py`, together with theorems settling the frozen claims
about the aggregation, layout, pattern-allocation and batch behaviour.

Numeric cells travel through the Python code as IEEE doubles produced by
`float(...)`.  The embedding idealises finite doubles as exact rationals and
keeps the non-finite values `nan`, `inf`, `-inf` as explicit constructors
(`PyFloat`), so that the propagation of non-finite parses through the
aggregation is faithfully representable.
-/

/-- A Python float as it flows through the chart pipeline: a finite value
(idealised as an exact rational) or one of the IEEE non-finite values. -/
inductive PyFloat where
  | finite (q : ℚ)
  | nan
  | inf
  | ninf
deriving DecidableEq

namespace PyFloat

/-- Finiteness test (`math.isfinite` view): true exactly on finite floats. -/
def isFiniteB : PyFloat → Bool
  | .finite _ => true
  | _ => false

/-- The rational payload of a finite float (0 for non-finite ones). -/
def val : PyFloat → ℚ
  | .finite q => q
  | _ => 0

end PyFloat

/-- IEEE addition on `PyFloat` as used by `sum`/`np.mean`:
`nan` is absorbing, `inf + (-inf) = nan`, infinities absorb finite values. -/
def pyAdd : PyFloat → PyFloat → PyFloat
  | .nan, _ => .nan
  | _, .nan => .nan
  | .inf, .ninf => .nan
  | .ninf, .inf => .nan
  | .inf, _ => .inf
  | _, .inf => .inf
  | .ninf, _ => .ninf
  | _, .ninf => .ninf
  | .finite a, .finite b => .finite (a + b)

/-- Sum of a list of floats, as computed by `np.mean`'s numerator. -/
def pySum (l : List PyFloat) : PyFloat := l.foldl pyAdd (.finite 0)

/-- Division of a float by a (positive) element count, as in `np.mean`;
division by count 0 (empty input) yields `nan`, matching numpy's
empty-mean warning path, which the pipeline never reaches. -/
def pyDivNat : PyFloat → ℕ → PyFloat
  | _, 0 => .nan
  | .finite q, n => .finite (q / n)
  | .nan, _ => .nan
  | .inf, _ => .inf
  | .ninf, _ => .ninf

/-- Embeds `np.mean(values)`: sum of the values divided by their count. -/
def npMean (l : List PyFloat) : PyFloat := pyDivNat (pySum l) l.length

/-! ## The numeric-text parser

`float(...)` as applied by `safe_float` to spreadsheet/CSV cell text.
The model covers the textual forms the pipeline meets: optional surrounding
whitespace, an optional sign, a decimal literal `digits[.digits]` /
`.digits` / `digits.`, and the case-insensitive special words `nan`, `inf`,
`infinity`.  (Exponent notation is not modelled; no claim depends on it.) -/

/-- ASCII whitespace recognizer (`str.strip` / `float` both ignore it). -/
def isSpaceChar (c : Char) : Bool :=
  c = ' ' || c = '\t' || c = '\n' || c = '\r'

/-- ASCII digit recognizer. -/
def isDigitB (c : Char) : Bool :=
  48 ≤ c.toNat && c.toNat ≤ 57

/-- Embeds Python `str.strip()`. -/
def pyStrip (s : String) : String :=
  String.mk (((s.toList.dropWhile isSpaceChar).reverse.dropWhile isSpaceChar).reverse)

/-- ASCII lower-casing of one character. -/
def lowChar (c : Char) : Char :=
  if 65 ≤ c.toNat ∧ c.toNat ≤ 90 then Char.ofNat (c.toNat + 32) else c

/-- ASCII upper-casing of one character. -/
def upChar (c : Char) : Char :=
  if 97 ≤ c.toNat ∧ c.toNat ≤ 122 then Char.ofNat (c.toNat - 32) else c

/-- Embeds `str.lower()` on a character list (ASCII range, all the pipeline uses). -/
def pyLower (cs : List Char) : List Char := cs.map lowChar

/-- Embeds Python `str.upper()` (ASCII range). -/
def pyUpper (s : String) : String := String.mk (s.toList.map upChar)

/-- Numeric value of a digit run. -/
def digitsVal (cs : List Char) : ℕ :=
  cs.foldl (fun a c => a * 10 + (c.toNat - 48)) 0

/-- Parse an unsigned decimal literal `digits[.digits]`, `.digits` or
`digits.` into an exact rational. -/
def parseUnsigned (cs : List Char) : Option ℚ :=
  let ip := cs.takeWhile isDigitB
  let rest := cs.dropWhile isDigitB
  match rest with
  | [] => if ip.isEmpty then none else some ((digitsVal ip : ℚ))
  | c :: fp =>
      if c = '.' then
        if fp.all isDigitB ∧ ¬(ip.isEmpty ∧ fp.isEmpty) then
          some ((digitsVal ip : ℚ) + (digitsVal fp : ℚ) / ((10 : ℚ) ^ fp.length))
        else none
      else none

/-- Embeds Python `float(text)` on the textual forms above; `none` models a
raised `ValueError`. -/
def pyParseFloat (s : String) : Option PyFloat :=
  let t := (pyStrip s).toList
  let (neg, body) :=
    match t with
    | [] => (false, ([] : List Char))
    | c :: rest =>
        if c = '-' then (true, rest)
        else if c = '+' then (false, rest)
        else (false, c :: rest)
  let low := pyLower body
  if low = ("nan").toList then some .nan
  else if low = ("inf").toList ∨ low = ("infinity").toList then
    some (if neg then .ninf else .inf)
  else
    match parseUnsigned body with
    | some q => some (.finite (if neg then -q else q))
    | none => none

/-- Embeds `safe_float` from `src/chart_generator.py` lines 101-108 (identical
in `src/headless_charts.py` lines 165-171): empty text and the `N/A` sentinel
in any letter case convert to `None` (no value); otherwise the text is handed
to `float(...)`, with a parse failure (`ValueError`) also yielding `None`.
(The `value is None` guard of the source concerns absent cells; CSV/sheet
rows are padded with `''`, which the empty-string case covers.) -/
def safe_float (value : String) : Option PyFloat :=
  if value = "" ∨ pyUpper value = "N/A" then none
  else pyParseFloat value

/-! ## Python string ordering

`sorted(groups.keys())` compares Python strings by code points,
lexicographically.  (`String`'s own order in this Lean toolchain is not
kernel-reducible, so the comparison is spelled out on character lists.) -/

/-- Code-point lexicographic `≤` on char lists (Python string comparison). -/
def listLeB : List Char → List Char → Bool
  | [], _ => true
  | _ :: _, [] => false
  | a :: as, b :: bs =>
      if a.toNat < b.toNat then true
      else if b.toNat < a.toNat then false
      else listLeB as bs

/-- Python string `≤`: code-point lexicographic comparison. -/
def pyStrLe (a b : String) : Prop := listLeB a.toList b.toList = true

instance (a b : String) : Decidable (pyStrLe a b) := by
  unfold pyStrLe; infer_instance

/-- Python string `<`: `≤` and distinct. -/
def pyStrLt (a b : String) : Prop := pyStrLe a b ∧ a ≠ b

instance (a b : String) : Decidable (pyStrLt a b) := by
  unfold pyStrLt; infer_instance

/-! ## Aggregation: `prepare_chart_data`

Embeds `prepare_chart_data` from `src/chart_generator.py` lines 156-202
(identical in `src/headless_charts.py` lines 174-205).  A data row enters the
function as a list of spreadsheet cells; the function touches exactly three of
them — the replicate-group key (column `REP_GROUP`), the sample name (column
`SAMPLE_NAME`) and the charted value (column `chart_def.col`) — so a row is
embedded as that triple of cell texts. -/

/-- One data row, projected to the three cells `prepare_chart_data` reads. -/
structure Row where
  repGroupCell : String
  sampleNameCell : String
  valueCell : String
deriving DecidableEq

/-- Embeds `str(row[REP_GROUP]).strip() if row[REP_GROUP] else ''` — the stripped
replicate-group key of a row (empty string when the cell is empty). -/
def Row.rkey (r : Row) : String := pyStrip r.repGroupCell

/-- Embeds `str(row[SAMPLE_NAME]).strip() if row[SAMPLE_NAME] else ''`. -/
def Row.rname (r : Row) : String := pyStrip r.sampleNameCell

/-- Association-list lookup (first binding wins), the dict-read model. -/
def alistGet (l : List (String × α)) (k : String) : Option α :=
  (l.find? (fun p => p.1 = k)).map (fun p => p.2)

/-- Embeds the `defaultdict(list)` append: `groups[rep_group].append(value)` — append to
the existing binding, or create a new binding at the end (dicts preserve
insertion order). -/
def groupsAppend (g : List (String × List PyFloat)) (k : String) (v : PyFloat) :
    List (String × List PyFloat) :=
  match g with
  | [] => [(k, [v])]
  | (k0, vs) :: rest =>
      if k0 = k then (k0, vs ++ [v]) :: rest
      else (k0, vs) :: groupsAppend rest k v

/-- The loop state of `prepare_chart_data`: the `groups` defaultdict and the
`first_names` dict, both in insertion order. -/
structure PrepState where
  groups : List (String × List PyFloat)
  first_names : List (String × String)
deriving DecidableEq

/-- One iteration of the row loop of `prepare_chart_data`: parse the value
cell with `safe_float`, skip the row when the key is empty or the value
unparsable, otherwise record the first sample name seen for the key and
append the value to the key's group. -/
def prepStep (st : PrepState) (row : Row) : PrepState :=
  match safe_float row.valueCell with
  | none => st
  | some v =>
      if row.rkey = "" then st
      else
        let fns :=
          if (alistGet st.first_names row.rkey).isNone then
            st.first_names ++ [(row.rkey, row.rname)]
          else st.first_names
        { groups := groupsAppend st.groups row.rkey v, first_names := fns }

/-- The state after the whole row loop. -/
def prepState (rows : List Row) : PrepState :=
  rows.foldl prepStep { groups := [], first_names := [] }

/-- The values accumulated for key `k` (empty when the key never appeared). -/
def getVals (st : PrepState) (k : String) : List PyFloat :=
  (alistGet st.groups k).getD []

/-- Embeds `sorted(groups.keys())` followed by the loop's `if not values: continue`
guard: the group keys in ascending string order, restricted to keys with at
least one retained value. -/
def chartKeysSt (st : PrepState) : List String :=
  (List.insertionSort pyStrLe (st.groups.map Prod.fst)).filter
    (fun k => ¬ getVals st k = [])

/-- The iteration order of the statistics loop of `prepare_chart_data` for a
given row list: one key per output group, ascending string order. -/
def chartKeys (rows : List Row) : List String := chartKeysSt (prepState rows)

/-- Embeds `first_names[rep_group] or f-string fallback`: the recorded first
sample name, with the synthesized fallback when that name is empty. -/
def labelFor (st : PrepState) (k : String) : String :=
  let nm := (alistGet st.first_names k).getD ""
  if nm = "" then "Group " ++ k else nm

/-- The result dict of `prepare_chart_data`: the parallel `labels`, `means`
and `raw_values` lists.  (The parallel `stds` list is real-valued — numpy's
`np.std` takes a square root — and is embedded just below as `prepareStds`,
mapped over the same per-key value lists that the source's single loop
iterates.) -/
structure ChartData where
  labels : List String
  means : List PyFloat
  raw_values : List (List PyFloat)
deriving DecidableEq

/-- Embeds `prepare_chart_data`: `None` when no measurement survives
filtering, otherwise the per-group statistics in ascending key order. -/
def prepare_chart_data (rows : List Row) : Option ChartData :=
  let st := prepState rows
  if st.groups = [] then none
  else
    some
      { labels := (chartKeysSt st).map (labelFor st)
        means := (chartKeysSt st).map (fun k => npMean (getVals st k))
        raw_values := (chartKeysSt st).map (getVals st) }

/-! ## Characterization of the aggregation loop -/

/-- A row survives the `if not rep_group or value is None: continue` filter. -/
def keepRow (r : Row) : Bool :=
  (safe_float r.valueCell).isSome && !(r.rkey = "")

/-- The parsed value of a retained row. -/
def rvalue (r : Row) : PyFloat := (safe_float r.valueCell).getD .nan

/-! ## The real-valued layer: `np.std` and the axis ceiling

`np.std(values, ddof=1)` takes a square root, so its exact value lives in `ℝ`
rather than `ℚ`.  `RFloat` is the real-payload counterpart of `PyFloat`. -/

/-- An IEEE double idealised with an exact real payload. -/
inductive RFloat where
  | finite (x : ℝ)
  | nan
  | inf
  | ninf

/-- Injection of pipeline values into the real-valued layer. -/
noncomputable def PyFloat.toR : PyFloat → RFloat
  | .finite q => .finite (q : ℝ)
  | .nan => .nan
  | .inf => .inf
  | .ninf => .ninf

/-- IEEE addition on `RFloat` (same table as `pyAdd`). -/
noncomputable def rAdd : RFloat → RFloat → RFloat
  | .nan, _ => .nan
  | _, .nan => .nan
  | .inf, .ninf => .nan
  | .ninf, .inf => .nan
  | .inf, _ => .inf
  | _, .inf => .inf
  | .ninf, _ => .ninf
  | _, .ninf => .ninf
  | .finite a, .finite b => .finite (a + b)

/-- The sample mean of the (finite) values, as a real. -/
noncomputable def sampleMeanR (l : List PyFloat) : ℝ :=
  (l.map (fun v => (v.val : ℝ))).sum / l.length

/-- Embeds `np.std(values, ddof=1)`: the square root of the sum of squared
deviations from the mean divided by `n - ddof = n - 1`.  A non-finite input
value makes the result `nan` (numpy propagates non-finite deviations to
`nan`). -/
noncomputable def npStdSample (l : List PyFloat) : RFloat :=
  if l.all PyFloat.isFiniteB then
    .finite (Real.sqrt
      ((l.map (fun v => ((v.val : ℝ) - sampleMeanR l) ^ 2)).sum / ((l.length : ℝ) - 1)))
  else .nan

/-- One entry of the `stds` list of `prepare_chart_data`
(`src/chart_generator.py` line 190): `np.std(values, ddof=1)` when the group
has more than one value, the exact integer `0` otherwise. -/
noncomputable def stdEntry (values : List PyFloat) : RFloat :=
  if values.length > 1 then npStdSample values else .finite 0

/-- The `stds` list of `prepare_chart_data`: the source's single per-key loop
appends `np.std(values, ddof=1) if len(values) > 1 else 0` and
`raw_values.append(values)` from the same `values`, so the list is `stdEntry`
mapped over the per-key value lists recorded in `raw_values`. -/
noncomputable def prepareStds (rows : List Row) : Option (List RFloat) :=
  (prepare_chart_data rows).map (fun cd => cd.raw_values.map stdEntry)

/-- The Python builtin `max` comparison step `x > acc` as executed on IEEE
values: any comparison with `nan` is false. -/
def rGtP : RFloat → RFloat → Prop
  | .nan, _ => False
  | _, .nan => False
  | .inf, .inf => False
  | .inf, _ => True
  | _, .inf => False
  | .ninf, _ => False
  | .finite _, .ninf => True
  | .finite a, .finite b => a > b

/-- Python's builtin `max` over a nonempty sequence: start from the first
element, replace the accumulator whenever the next element compares greater
(comparisons involving `nan` are false, so `nan` wins only from the first
position). -/
noncomputable def builtinMax (hd : RFloat) (tl : List RFloat) : RFloat :=
  tl.foldl (fun acc x => @ite _ (rGtP x acc) (Classical.propDecidable _) x acc) hd

/-- Multiplication by the positive literal headroom factor (`ymax * 1.15`). -/
noncomputable def rScale (c : ℚ) : RFloat → RFloat
  | .finite x => .finite ((c : ℝ) * x)
  | .nan => .nan
  | .inf => .inf
  | .ninf => .ninf

/-- Embeds the axis-ceiling computation of `create_publication_chart`
(`src/chart_generator.py` lines 254-256, identical in `src/headless_charts.py`
lines 245-247): when both the `means` and `stds` lists are nonempty,
`ymax = max(np.array(means) + np.array(stds))` and the resolved ceiling is
`ymax * 1.15`; `none` means the guard `if means and stds:` skipped the
`set_ylim` update. -/
noncomputable def pubChartTop (cd : ChartData) : Option RFloat :=
  match cd.means, cd.raw_values.map stdEntry with
  | [], _ => none
  | _, [] => none
  | m :: ms, s :: ss =>
      some (rScale (23/20)
        (builtinMax (rAdd m.toR s) (List.zipWith rAdd (ms.map PyFloat.toR) ss)))

/-! ## Claim theorems -/

/-- The label the spec describes for key `k`: the stripped sample name of the
first retained measurement whose key is `k` (input order), with the
synthesized `"Group <key>"` fallback when that name is empty. -/
def firstRetainedLabel (rows : List Row) (k : String) : String :=
  let nm := (((rows.filter keepRow).find? (fun r => r.rkey = k)).map Row.rname).getD ""
  if nm = "" then "Group " ++ k else nm

/-- Concrete input for the C1 witness: one group `A` with values 1 and 3. -/
def wrowsC1 : List Row := [⟨"A", "S1", "1"⟩, ⟨"A", "S2", "3"⟩]

/-- The aggregation result on `wrowsC1`. -/
def cdC1 : ChartData :=
  { labels := ["S1"]
    means := [npMean [.finite 1, .finite 3]]
    raw_values := [[.finite 1, .finite 3]] }

/-- A data row whose value cell holds the text `nan`. -/
def rowNan : Row := ⟨"A", "S1", "nan"⟩

/-- A data row whose value cell holds the text `inf`. -/
def rowInf : Row := ⟨"A", "S1", "inf"⟩

/-! ## The Flask service layer

Embeds the chart builders and endpoints of `src/app.py` and
`src/unnamed/part_000`, and the pattern/jitter fragments of
`src/chart_service.py` and `src/chart_generator.py`.

A request payload is a JSON document; dict reads with a possibly missing key
are modelled with `Option` (`none` = key absent, so a subscript read raises
`KeyError`), and `.get(key, default)` reads with `Option.getD`.

numpy's Gaussian sampler is modelled abstractly by a deterministic
linear-congruential stream: all that matters for the claims is which state
the sampler starts from — the freshly seeded `np.random.default_rng(42)`
versus the mutable process-global generator behind `np.random.normal` —
and that distinct states can produce distinct draws. -/

/-- One step of the abstract generator state. -/
def lcg (s : ℕ) : ℕ := (s * 1103515245 + 12345) % 2147483648

/-- The draw emitted at state `s`, scaled into `[-1, 1]`. -/
def drawOf (s : ℕ) : ℚ := ((s % 201 : ℕ) : ℚ) / 100 - 1

/-- Embeds `rng.normal(0, sigma, n)`: `n` draws and the advanced generator state. -/
def normalDraws (sigma : ℚ) : ℕ → ℕ → List ℚ × ℕ
  | 0, s => ([], s)
  | n + 1, s =>
      let s1 := lcg s
      let (rest, s2) := normalDraws sigma n s1
      (sigma * drawOf s1 :: rest, s2)

/-- Embeds `np.random.default_rng(seed).normal(0, sigma, n)`: a pure function of the
seed — no global state is read or advanced. -/
def seededDraws (seed : ℕ) (sigma : ℚ) (n : ℕ) : List ℚ :=
  (normalDraws sigma n seed).1

/-- One average-chart group of the request payload
(label, mean, std, n); `label` and `mean` are read with subscripts
(`KeyError` when absent), `std` with `.get('std', 0)`. -/
structure AvgGroup where
  label : Option String
  mean : Option ℚ
  std : Option ℚ
deriving DecidableEq

/-- One individual-chart treatment of the request payload. -/
structure Treatment where
  name : String
  values : List ℚ
deriving DecidableEq

/-- One time-course series of the request payload. -/
structure TimeGroup where
  name : String
  ages : List ℚ
  means : List ℚ
  stds : Option (List ℚ)
deriving DecidableEq

/-- The family-specific request payload (`data`), with every field the
builders read. -/
structure ReqData where
  groups : List AvgGroup
  raw_values : Option (List (List ℚ))
  treatments : List Treatment
  sample_names : List String
  tgroups : List TimeGroup
  title : String
  yaxis : String
  color : String
deriving DecidableEq

/-- The resolved average-chart model: the layout facts the claims speak
about (labels, means, stds, per-group jitter offsets, vertical axis range). -/
structure AvgModel where
  labels : List String
  means : List ℚ
  stds : List ℚ
  scatter : List (List ℚ)
  ylim : ℚ × ℚ
deriving DecidableEq

/-- The resolved individual-chart model. -/
structure IndModel where
  clusters : ℕ
  barWidth : ℚ
  offsets : List ℚ
  series : List (String × List ℚ)
deriving DecidableEq

/-- The resolved time-course model (only its existence matters here). -/
structure TimeModel where
  names : List String
deriving DecidableEq

/-- A resolved figure of one of the three families. -/
inductive FigModel where
  | avg (m : AvgModel)
  | ind (m : IndModel)
  | time (m : TimeModel)
deriving DecidableEq

/-- A builder outcome: a figure, `None` (no data), or a raised exception. -/
inductive BuildRes where
  | fig (m : FigModel)
  | emptyData
  | raised (msg : String)
deriving DecidableEq

/-- Evaluate a Python list comprehension of subscript reads: `none` as soon
as any element's key is missing (the comprehension raises `KeyError`). -/
def allSome {α : Type} : List (Option α) → Option (List α)
  | [] => some []
  | none :: _ => none
  | some a :: rest => (allSome rest).map (fun l => a :: l)

/-- Python's builtin `max` over a list of exact rationals, with the source's
`if means else 1` default for the empty case. -/
def qMaxList : List ℚ → ℚ
  | [] => 1
  | h :: t => t.foldl max h

/-- The jitter pass of `build_avg_chart` in `src/app.py` lines 107-111:
`np.random.normal(0, 0.04, len(vals))` for every entry of `raw_values`,
drawing from (and advancing) the process-global generator state `g`. -/
def scatterGlobalApp (sigma : ℚ) : List (List ℚ) → ℕ → List (List ℚ) × ℕ
  | [], g => ([], g)
  | vals :: rest, g =>
      let (j, g1) := normalDraws sigma vals.length g
      let (js, g2) := scatterGlobalApp sigma rest g1
      (j :: js, g2)

/-- Embeds `build_avg_chart` from `src/app.py` lines 78-133: `None` for an
empty group list; otherwise labels/means by subscript (first missing key
raises), stds by `.get('std', 0)`, jitter from the unseeded global generator
with sigma 0.04 when `raw_values` is present, and vertical range
`(0, max(mean+std) * 1.15)`. -/
def build_avg_app (g : ℕ) (d : ReqData) : BuildRes × ℕ :=
  if d.groups = [] then (.emptyData, g)
  else
    match allSome (d.groups.map (fun gr => gr.label)) with
    | none => (.raised ("KeyError: 'label'"), g)
    | some labels =>
        match allSome (d.groups.map (fun gr => gr.mean)) with
        | none => (.raised ("KeyError: 'mean'"), g)
        | some means =>
            let stds := d.groups.map (fun gr => gr.std.getD 0)
            let (scatter, g2) :=
              match d.raw_values with
              | none => (([] : List (List ℚ)), g)
              | some rvs => scatterGlobalApp (1/25) rvs g
            let ymax := qMaxList (List.zipWith (fun m s => m + s) means stds)
            (.fig (.avg { labels := labels, means := means, stds := stds
                          scatter := scatter
                          ylim := (0, ymax * (23/20)) }), g2)

/-- Python `max` of a list of naturals (`max(len(t['values']) ...)`),
never called on an empty list by the guarded builders. -/
def maxNatList : List ℕ → ℕ
  | [] => 0
  | h :: t => t.foldl max h

/-- Embeds the grouped-bar layout shared verbatim by `build_ind_chart`
(`src/app.py` lines 136-181 and `src/unnamed/part_000` lines 119-161) and
`create_ind_chart` (`src/chart_service.py` lines 136-174): cluster count =
the maximum replicate count over treatments, per-treatment zero padding up to
that count, bar width `0.8 / n_treatments`, offsets
`(ti - n/2 + 0.5) * width`. -/
def indLayout (treatments : List Treatment) : IndModel :=
  let nt := treatments.length
  let maxReps := maxNatList (treatments.map (fun t => t.values.length))
  let bw : ℚ := (4/5) / nt
  { clusters := maxReps
    barWidth := bw
    offsets := (List.range nt).map
      (fun ti : ℕ => ((ti : ℚ) - (nt : ℚ) / 2 + 1/2) * bw)
    series := treatments.map (fun t =>
      (t.name, t.values ++ List.replicate (maxReps - t.values.length) 0)) }

/-- Embeds `build_ind_chart` (both service variants): `None` on an empty
treatment list, else the grouped-bar layout. -/
def build_ind_core (d : ReqData) : BuildRes :=
  if d.treatments = [] then .emptyData
  else .fig (.ind (indLayout d.treatments))

/-- Embeds `build_time_chart` (both service variants): `None` on an empty
group list, else a line-chart figure. -/
def build_time_core (d : ReqData) : BuildRes :=
  if d.tgroups = [] then .emptyData
  else .fig (.time { names := d.tgroups.map (fun tg => tg.name) })

/-- An HTTP response of the `/chart` endpoint: an image payload, or an error
document with its status code. -/
inductive Resp where
  | image (m : FigModel)
  | err (msg : String) (code : ℕ)
deriving DecidableEq

/-- Converts a builder outcome into the `/chart` response of `src/app.py`
lines 253-274: figure → image; `None` → `('No data to chart', 400)`; a
raised exception is caught by the handler's `try` and becomes
`(str(e), 500)`. -/
def respOf (p : BuildRes × ℕ) : Resp × ℕ :=
  match p with
  | (.fig m, g2) => (.image m, g2)
  | (.emptyData, g2) => (.err ("No data to chart") 400, g2)
  | (.raised msg, g2) => (.err msg 500, g2)

/-- Embeds the `/chart` endpoint of `src/app.py` lines 242-274: dispatch on
the `type` discriminator, `('Unknown chart type: <t>', 400)` for an
unrecognized family. -/
def generate_chart_app (g : ℕ) (typ : String) (d : ReqData) : Resp × ℕ :=
  if typ = "average" then respOf (build_avg_app g d)
  else if typ = "individual" then respOf (build_ind_core d, g)
  else if typ = "timecourse" then respOf (build_time_core d, g)
  else (.err ("Unknown chart type: " ++ typ) 400, g)

/-- One batch item: the `type` discriminator and its `data` payload. -/
structure ChartReq where
  typ : String
  data : ReqData
deriving DecidableEq

/-- One per-item outcome of a batch response: an image or an error object. -/
inductive ItemRes where
  | image (m : FigModel)
  | err (msg : String)
deriving DecidableEq

/-- The loop of the `/batch` endpoint of `src/app.py` lines 277-317.  There
is NO per-item `try`: an unknown type or a `None` figure append an error
object and continue, but an exception raised while building a chart escapes
the loop to the endpoint's outer `except`, which replies with a single error
document — the partial results are discarded. -/
def batchGoApp : ℕ → List ChartReq → List ItemRes → Except String (List ItemRes) × ℕ
  | g, [], acc => (.ok acc, g)
  | g, c :: rest, acc =>
      if c.typ = "average" then
        match build_avg_app g c.data with
        | (.fig m, g2) => batchGoApp g2 rest (acc ++ [.image m])
        | (.emptyData, g2) => batchGoApp g2 rest (acc ++ [.err ("No data")])
        | (.raised msg, g2) => (.error msg, g2)
      else if c.typ = "individual" then
        match build_ind_core c.data with
        | .fig m => batchGoApp g rest (acc ++ [.image m])
        | .emptyData => batchGoApp g rest (acc ++ [.err ("No data")])
        | .raised msg => (.error msg, g)
      else if c.typ = "timecourse" then
        match build_time_core c.data with
        | .fig m => batchGoApp g rest (acc ++ [.image m])
        | .emptyData => batchGoApp g rest (acc ++ [.err ("No data")])
        | .raised msg => (.error msg, g)
      else batchGoApp g rest (acc ++ [.err ("Unknown type: " ++ c.typ)])

/-- Embeds the `/batch` endpoint of `src/app.py`: `Except.ok results` models
the results-list reply, `Except.error msg` the all-or-nothing
single error-object reply produced when an item's build raises. -/
def generate_batch_app (g : ℕ) (charts : List ChartReq) :
    Except String (List ItemRes) × ℕ :=
  batchGoApp g charts []

/-- Embeds `build_avg_chart` from `src/unnamed/part_000` lines 67-116: same
layout as the `src/app.py` variant, but the jitter generator is
`np.random.default_rng(42)` — freshly seeded per group, sigma 0.05, no global
state — and groups with an empty value list are skipped (`if vals:`). -/
def build_avg_p0 (d : ReqData) : BuildRes :=
  if d.groups = [] then .emptyData
  else
    match allSome (d.groups.map (fun gr => gr.label)) with
    | none => .raised ("KeyError: 'label'")
    | some labels =>
        match allSome (d.groups.map (fun gr => gr.mean)) with
        | none => .raised ("KeyError: 'mean'")
        | some means =>
            let stds := d.groups.map (fun gr => gr.std.getD 0)
            let scatter := (d.raw_values.getD []).map (fun vals =>
              if vals = [] then [] else seededDraws 42 (1/20) vals.length)
            let ymax := qMaxList (List.zipWith (fun m s => m + s) means stds)
            .fig (.avg { labels := labels, means := means, stds := stds
                         scatter := scatter
                         ylim := (0, ymax * (23/20)) })

/-- One item of the `/batch` loop of `src/unnamed/part_000` lines 235-266:
the per-item `try` turns a raised exception into this item's error object,
`builders.get` returns no builder for an unknown type, and a `None` figure
becomes `'No data'`; every outcome depends on this request alone. -/
def processItemP0 (c : ChartReq) : ItemRes :=
  if c.typ = "average" then
    match build_avg_p0 c.data with
    | .fig m => .image m
    | .emptyData => .err ("No data")
    | .raised msg => .err msg
  else if c.typ = "individual" then
    match build_ind_core c.data with
    | .fig m => .image m
    | .emptyData => .err ("No data")
    | .raised msg => .err msg
  else if c.typ = "timecourse" then
    match build_time_core c.data with
    | .fig m => .image m
    | .emptyData => .err ("No data")
    | .raised msg => .err msg
  else .err ("Unknown type")

/-- Embeds the `/batch` endpoint of `src/unnamed/part_000`: the loop appends
exactly one outcome per request, in order. -/
def generate_batch_p0 (charts : List ChartReq) : List ItemRes :=
  charts.map processItemP0

/-! ## Pattern allocation -/

/-- The `HATCHES` table of `src/chart_generator.py` line 72 (identical in
`src/headless_charts.py` line 73). -/
def HATCHES_CG : List String :=
  ["", "///", "xxx", "...", "+++", "\\\\\\", "ooo", "***", "OOO", "---",
   "|||", "===", "+++", "***", "ooo"]

/-- The pattern pick of `create_publication_chart`
(`src/chart_generator.py` line 219, `src/headless_charts.py` line 220):
`HATCHES[chart_index % len(HATCHES)]`. -/
def cgHatch (i : ℕ) : String := HATCHES_CG.getD (i % HATCHES_CG.length) ""

/-- The `HATCHES` table of `src/chart_service.py` line 39 (10 entries). -/
def HATCHES_SVC : List String :=
  ["", "///", "xxx", "...", "+++", "\\\\\\", "ooo", "***", "OOO", "---"]

/-- Python's builtin `hash` on a `str`, as a function of the per-process
hash seed (`PYTHONHASHSEED` randomizes it at interpreter start): a
deterministic mix of the seed and the code points, modelling that the result
depends on both. -/
def pyHash (seed : ℕ) (s : String) : ℕ :=
  s.toList.foldl (fun a c => (a * 1000003 + c.toNat) % 2305843009213693951) seed

/-- The pattern pick of `create_avg_chart` (`src/chart_service.py` line 98):
`HATCHES[hash(title) % len(HATCHES)]` — a function of the title text and the
process hash seed, not of the chart index. -/
def svcHatch (seed : ℕ) (title : String) : String :=
  HATCHES_SVC.getD (pyHash seed title % HATCHES_SVC.length) ""

/-- An empty request payload. -/
def emptyData0 : ReqData :=
  { groups := [], raw_values := none, treatments := [], sample_names := []
    tgroups := [], title := "", yaxis := "", color := "" }

/-- A batch item with an unrecognized chart family. -/
def reqUnknown : ChartReq := ⟨"pie", emptyData0⟩

/-- A well-formed individual-family batch item. -/
def reqIndGood : ChartReq :=
  ⟨"individual", { emptyData0 with treatments := [⟨"A", [1]⟩] }⟩

/-- An average-family batch item whose group dict lacks the `label` key, so
`build_avg_chart` raises `KeyError`. -/
def reqBadAvg : ChartReq :=
  ⟨"average", { emptyData0 with groups := [⟨none, some 5, none⟩] }⟩

/-- The ceiling of a built average figure, when one was produced. -/
def avgTopOf : BuildRes → Option ℚ
  | .fig (.avg m) => some m.ylim.2
  | _ => none

/-- An average request with a single negative-mean group. -/
def dNeg : ReqData := { emptyData0 with groups := [⟨some "A", some (-10), some 0⟩] }

/-- A well-formed average request with `mean = 10`, `std = 2`. -/
def dPos : ReqData := { emptyData0 with groups := [⟨some "A", some 10, some 2⟩] }

/-- The average model resolved for `dPos`. -/
def mPos : AvgModel :=
  { labels := ["A"], means := [10], stds := [2], scatter := []
    ylim := (0, 69 / 5) }

/-- The per-group jitter offsets of a built average figure. -/
def avgScatterOf : BuildRes → Option (List (List ℚ))
  | .fig (.avg m) => some m.scatter
  | _ => none

/-- An average request carrying raw per-sample values. -/
def jitterData : ReqData :=
  { emptyData0 with groups := [⟨some "A", some 2, some 0⟩]
                    raw_values := some [[2]] }

/-- A render through `src/unnamed/part_000`'s builder: the jitter comes from
`np.random.default_rng(42)`, so the global generator state `g` is neither
read nor advanced. -/
def render_p0 (g : ℕ) (d : ReqData) : BuildRes × ℕ := (build_avg_p0 d, g)

/-! ## Lemmas and claim theorems -/

example : safe_float ("3.5") = some (.finite (7/2)) := by
  norm_num +decide [safe_float, pyParseFloat, pyStrip, pyLower, parseUnsigned, digitsVal,
    isSpaceChar, isDigitB, lowChar, upChar, pyUpper]
  simp
  norm_num

example : safe_float ("n/a") = none := by decide

example : safe_float ("") = none := by decide

example : safe_float ("nan") = some .nan := by decide

example : safe_float (" -inf ") = some .ninf := by decide

example : safe_float ("abc") = none := by decide

example : safe_float ("12") = some (.finite 12) := by decide

theorem listLeB_cons {a b : Char} {as bs : List Char} :
    listLeB (a :: as) (b :: bs) = true ↔
      a.toNat < b.toNat ∨ (a.toNat = b.toNat ∧ listLeB as bs = true) := by
  simp only [listLeB]
  split_ifs with h1 h2
  · simp [h1]
  · constructor
    · intro h; exact absurd h (by simp)
    · intro h; rcases h with h | ⟨h, _⟩ <;> omega
  · have he : a.toNat = b.toNat := by omega
    simp [he]

theorem listLeB_total : ∀ as bs : List Char, listLeB as bs = true ∨ listLeB bs as = true
  | [], _ => Or.inl rfl
  | _ :: _, [] => Or.inr rfl
  | a :: as, b :: bs => by
      by_cases h : a.toNat < b.toNat
      · left; rw [listLeB_cons]; exact Or.inl h
      · by_cases h2 : b.toNat < a.toNat
        · right; rw [listLeB_cons]; exact Or.inl h2
        · rcases listLeB_total as bs with ih | ih
          · left; rw [listLeB_cons]; exact Or.inr ⟨by omega, ih⟩
          · right; rw [listLeB_cons]; exact Or.inr ⟨by omega, ih⟩

theorem listLeB_trans : ∀ as bs cs : List Char,
    listLeB as bs = true → listLeB bs cs = true → listLeB as cs = true
  | [], _, _ => by intro _ _; rfl
  | a :: as, [], _ => by intro h _; simp [listLeB] at h
  | a :: as, b :: bs, [] => by intro _ h; simp [listLeB] at h
  | a :: as, b :: bs, c :: cs => by
      intro h1 h2
      rw [listLeB_cons] at h1 h2 ⊢
      rcases h1 with h1 | ⟨h1e, h1r⟩
      · rcases h2 with h2 | ⟨h2e, _⟩
        · left; omega
        · left; omega
      · rcases h2 with h2 | ⟨h2e, h2r⟩
        · left; omega
        · right; exact ⟨by omega, listLeB_trans as bs cs h1r h2r⟩

theorem charToNat_inj {a b : Char} (h : a.toNat = b.toNat) : a = b :=
  Char.eq_of_val_eq (UInt32.eq_of_toBitVec_eq (BitVec.eq_of_toNat_eq h))

theorem listLeB_antisymm : ∀ as bs : List Char,
    listLeB as bs = true → listLeB bs as = true → as = bs
  | [], [] => by intro _ _; rfl
  | [], _ :: _ => by intro _ h; simp [listLeB] at h
  | _ :: _, [] => by intro h _; simp [listLeB] at h
  | a :: as, b :: bs => by
      intro h1 h2
      rw [listLeB_cons] at h1 h2
      have he : a.toNat = b.toNat := by omega
      have h1r : listLeB as bs = true := by
        rcases h1 with h | ⟨_, h⟩; · omega
        · exact h
      have h2r : listLeB bs as = true := by
        rcases h2 with h | ⟨_, h⟩; · omega
        · exact h
      rw [charToNat_inj he, listLeB_antisymm as bs h1r h2r]

instance : IsTotal String pyStrLe := ⟨fun a b => listLeB_total a.toList b.toList⟩

instance : IsTrans String pyStrLe :=
  ⟨fun a b c => listLeB_trans a.toList b.toList c.toList⟩

theorem string_toList_inj {a b : String} (h : a.toList = b.toList) : a = b := by
  cases a; cases b
  exact congrArg String.mk (by simpa [String.toList] using h)

instance : IsAntisymm String pyStrLe :=
  ⟨fun a b h1 h2 => string_toList_inj (listLeB_antisymm a.toList b.toList h1 h2)⟩

/-- The `means` list is `np.mean` mapped over the per-group value lists that
`raw_values` also records (the source loop appends both per key). -/
theorem means_eq_map_npMean (rows : List Row) (cd : ChartData)
    (h : prepare_chart_data rows = some cd) :
    cd.means = cd.raw_values.map npMean := by
  unfold prepare_chart_data at h
  simp only at h
  split at h
  · exact absurd h (by simp)
  · rw [← Option.some_inj.mp h]
    simp [List.map_map]

example :
    (prepare_chart_data
      [⟨"B", "Ctrl", "2"⟩, ⟨"", "X", "7"⟩, ⟨"A", "T1", "4"⟩,
       ⟨"B", "Ctrl2", "n/a"⟩, ⟨"A", "T1b", "6"⟩]).map
        (fun cd => (cd.labels, cd.raw_values)) =
    some (["T1", "Ctrl"], [[.finite 4, .finite 6], [.finite 2]]) := by
  decide

theorem prepStep_skip {st : PrepState} {r : Row} (h : keepRow r = false) :
    prepStep st r = st := by
  unfold keepRow at h
  unfold prepStep
  rcases hv : safe_float r.valueCell with _ | v
  · rfl
  · rw [hv] at h
    simp at h
    simp [h]

theorem prepStep_keep {st : PrepState} {r : Row} (h : keepRow r = true) :
    prepStep st r =
      { groups := groupsAppend st.groups r.rkey (rvalue r)
        first_names :=
          if (alistGet st.first_names r.rkey).isNone then
            st.first_names ++ [(r.rkey, r.rname)]
          else st.first_names } := by
  unfold keepRow at h
  unfold prepStep
  rcases hv : safe_float r.valueCell with _ | v
  · rw [hv] at h; simp at h
  · rw [hv] at h
    simp at h
    simp [h, rvalue, hv]

theorem alistGet_isSome_iff {α : Type} (g : List (String × α)) (k : String) :
    (alistGet g k).isSome = true ↔ k ∈ g.map Prod.fst := by
  induction g with
  | nil => simp [alistGet]
  | cons p rest ih =>
      by_cases h : p.1 = k
      · simp [alistGet, List.find?_cons, h]
      · simp only [alistGet, List.find?_cons] at ih ⊢
        simp [h, ih, Ne.symm h]

theorem groupsAppend_get_self (g : List (String × List PyFloat)) (k : String) (v : PyFloat) :
    alistGet (groupsAppend g k v) k = some ((alistGet g k).getD [] ++ [v]) := by
  induction g with
  | nil => simp [groupsAppend, alistGet]
  | cons p rest ih =>
      by_cases h : p.1 = k
      · simp [groupsAppend, h, alistGet, List.find?_cons]
      · simp only [groupsAppend, h, if_false]
        simp only [alistGet, List.find?_cons, h] at ih ⊢
        simp [h, ih]

theorem groupsAppend_get_other (g : List (String × List PyFloat)) (k k' : String)
    (v : PyFloat) (h : k' ≠ k) :
    alistGet (groupsAppend g k v) k' = alistGet g k' := by
  induction g with
  | nil => simp [groupsAppend, alistGet, List.find?_cons, Ne.symm h]
  | cons p rest ih =>
      by_cases hp : p.1 = k
      · simp [groupsAppend, hp, alistGet, List.find?_cons, Ne.symm h]
      · simp only [groupsAppend, hp, if_false]
        simp only [alistGet, List.find?_cons] at ih ⊢
        by_cases hp2 : p.1 = k'
        · simp [hp2]
        · simp [hp2, ih]

theorem groupsAppend_keys (g : List (String × List PyFloat)) (k : String) (v : PyFloat) :
    (groupsAppend g k v).map Prod.fst =
      if k ∈ g.map Prod.fst then g.map Prod.fst else g.map Prod.fst ++ [k] := by
  induction g with
  | nil => simp [groupsAppend]
  | cons p rest ih =>
      by_cases h : p.1 = k
      · simp [groupsAppend, h]
      · simp only [groupsAppend, h, if_false, List.map_cons, ih]
        by_cases hm : k ∈ rest.map Prod.fst
        · simp [hm, Ne.symm h]
        · simp [hm, Ne.symm h]

theorem foldl_prepStep_filter (st : PrepState) (rows : List Row) :
    rows.foldl prepStep st = (rows.filter keepRow).foldl prepStep st := by
  induction rows generalizing st with
  | nil => rfl
  | cons r rest ih =>
      by_cases h : keepRow r = true
      · simp [List.filter_cons, h, List.foldl_cons, ih]
      · have h0 : keepRow r = false := by simp at h; simp [h]
        simp [List.filter_cons, h0, List.foldl_cons, prepStep_skip h0, ih]

theorem foldl_prepStep_vals (rows : List Row) (st : PrepState) (k : String) :
    getVals (rows.foldl prepStep st) k =
      getVals st k ++
        ((rows.filter keepRow).filter (fun r => r.rkey = k)).map rvalue := by
  induction rows generalizing st with
  | nil => simp
  | cons r rest ih =>
      by_cases h : keepRow r = true
      · rw [List.foldl_cons, prepStep_keep h, ih]
        by_cases hk : r.rkey = k
        · subst hk
          simp [List.filter_cons, h, getVals, groupsAppend_get_self]
        · simp [List.filter_cons, h, hk, getVals, groupsAppend_get_other _ _ _ _
            (fun he => hk he.symm)]
      · have h0 : keepRow r = false := by simp at h; simp [h]
        rw [List.foldl_cons, prepStep_skip h0]
        simp [List.filter_cons, h0, ih]

theorem some_or_eq {α : Type} (a : α) (x : Option α) : (some a).or x = some a := rfl

theorem alistGet_append_single {α : Type} (g : List (String × α)) (k k' : String) (v : α) :
    alistGet (g ++ [(k, v)]) k' =
      (alistGet g k').or (if k' = k then some v else none) := by
  unfold alistGet
  rw [List.find?_append]
  rcases hf : g.find? (fun p => p.1 = k') with _ | p
  · by_cases hk : k' = k
    · subst hk; simp [hf, List.find?_cons, Option.none_or]
    · have hkk : ¬ k = k' := fun heq => hk heq.symm
      simp [hf, List.find?_cons, hk, hkk, Option.none_or]
  · simp [hf, some_or_eq]

theorem foldl_prepStep_names (rows : List Row) (st : PrepState) (k : String) :
    alistGet (rows.foldl prepStep st).first_names k =
      (alistGet st.first_names k).or
        (((rows.filter keepRow).find? (fun r => r.rkey = k)).map Row.rname) := by
  induction rows generalizing st with
  | nil => simp
  | cons r rest ih =>
      by_cases h : keepRow r = true
      · rw [List.foldl_cons, prepStep_keep h, ih]
        have hfind : ((r :: rest).filter keepRow).find? (fun x => x.rkey = k) =
            if r.rkey = k then some r
            else (rest.filter keepRow).find? (fun x => x.rkey = k) := by
          simp only [List.filter_cons, h, if_true, List.find?_cons]
          by_cases hk : r.rkey = k <;> simp [hk]
        rw [hfind]
        by_cases hk : r.rkey = k
        · subst hk
          rw [if_pos rfl]
          rcases hn : alistGet st.first_names r.rkey with _ | nm
          · rw [if_pos (by simp [hn]), alistGet_append_single]
            simp [hn, Option.none_or, some_or_eq]
          · rw [if_neg (by simp [hn])]
            simp [hn, some_or_eq]
        · rw [if_neg hk]
          by_cases hn : (alistGet st.first_names r.rkey).isNone = true
          · rw [if_pos hn, alistGet_append_single,
              if_neg (fun heq => hk heq.symm), Option.or_none]
          · rw [if_neg hn]
      · have h0 : keepRow r = false := by simp at h; simp [h]
        rw [List.foldl_cons, prepStep_skip h0]
        simp [List.filter_cons, h0, ih]

theorem groupsAppend_vals_nonempty {g : List (String × List PyFloat)} {k : String}
    {v : PyFloat} (h : ∀ p ∈ g, p.2 ≠ []) :
    ∀ p ∈ groupsAppend g k v, p.2 ≠ [] := by
  induction g with
  | nil =>
      intro p hp
      simp only [groupsAppend, List.mem_singleton] at hp
      subst hp; simp
  | cons q rest ih =>
      intro p hp
      by_cases hq : q.1 = k
      · simp only [groupsAppend, hq, if_true, List.mem_cons] at hp
        rcases hp with hp | hp
        · subst hp; simp
        · exact h p (List.mem_cons_of_mem _ hp)
      · simp only [groupsAppend, hq, if_false, List.mem_cons] at hp
        rcases hp with hp | hp
        · subst hp; exact h _ (List.mem_cons_self _ _)
        · exact ih (fun p hp => h p (List.mem_cons_of_mem _ hp)) p hp

theorem prepState_vals_nonempty (rows : List Row) :
    ∀ p ∈ (prepState rows).groups, p.2 ≠ [] := by
  unfold prepState
  generalize hst : ({ groups := [], first_names := [] } : PrepState) = st0
  have h0 : ∀ p ∈ st0.groups, p.2 ≠ [] := by rw [← hst]; simp
  clear hst
  induction rows generalizing st0 with
  | nil => exact h0
  | cons r rest ih =>
      rw [List.foldl_cons]
      apply ih
      by_cases h : keepRow r = true
      · rw [prepStep_keep h]
        exact groupsAppend_vals_nonempty h0
      · have h0' : keepRow r = false := by simp at h; simp [h]
        rw [prepStep_skip h0']
        exact h0

theorem groupsAppend_keys_nodup {g : List (String × List PyFloat)} {k : String}
    {v : PyFloat} (h : (g.map Prod.fst).Nodup) :
    ((groupsAppend g k v).map Prod.fst).Nodup := by
  rw [groupsAppend_keys]
  by_cases hm : k ∈ g.map Prod.fst
  · simpa [hm] using h
  · simp only [hm, if_false]
    rw [List.nodup_append]
    exact ⟨h, List.nodup_singleton k, by simpa using hm⟩

theorem prepState_keys_nodup (rows : List Row) :
    ((prepState rows).groups.map Prod.fst).Nodup := by
  unfold prepState
  generalize hst : ({ groups := [], first_names := [] } : PrepState) = st0
  have h0 : (st0.groups.map Prod.fst).Nodup := by rw [← hst]; simp
  clear hst
  induction rows generalizing st0 with
  | nil => exact h0
  | cons r rest ih =>
      rw [List.foldl_cons]
      apply ih
      by_cases h : keepRow r = true
      · rw [prepStep_keep h]
        exact groupsAppend_keys_nodup h0
      · have h0' : keepRow r = false := by simp at h; simp [h]
        rw [prepStep_skip h0']
        exact h0

theorem prepState_vals (rows : List Row) (k : String) :
    getVals (prepState rows) k =
      ((rows.filter keepRow).filter (fun r => r.rkey = k)).map rvalue := by
  unfold prepState
  rw [foldl_prepStep_vals]
  simp [getVals, alistGet]

theorem prepState_names (rows : List Row) (k : String) :
    alistGet (prepState rows).first_names k =
      ((rows.filter keepRow).find? (fun r => r.rkey = k)).map Row.rname := by
  unfold prepState
  rw [foldl_prepStep_names]
  simp [alistGet, Option.none_or]

theorem alistGet_isSome_of_mem {g : List (String × List PyFloat)} {k : String}
    (hp : ∀ p ∈ g, p.2 ≠ []) :
    (alistGet g k).isSome = true ↔ getVals { groups := g, first_names := [] } k ≠ [] := by
  constructor
  · intro h
    rcases hg : alistGet g k with _ | vs
    · rw [hg] at h; simp at h
    · unfold getVals
      simp only [hg, Option.getD_some]
      unfold alistGet at hg
      rcases hf : g.find? (fun p => p.1 = k) with _ | p
      · rw [hf] at hg; simp at hg
      · rw [hf] at hg
        simp at hg
        have hmem := List.mem_of_find?_eq_some hf
        have := hp p hmem
        rw [hg] at this
        exact this
  · intro h
    rcases hg : alistGet g k with _ | vs
    · unfold getVals at h
      rw [hg] at h
      simp at h
    · simp [hg]

theorem prepState_keys_mem (rows : List Row) (k : String) :
    k ∈ (prepState rows).groups.map Prod.fst ↔
      ∃ r ∈ rows, keepRow r = true ∧ r.rkey = k := by
  rw [← alistGet_isSome_iff]
  have hiff : (alistGet (prepState rows).groups k).isSome = true ↔
      getVals (prepState rows) k ≠ [] := by
    have := alistGet_isSome_of_mem (g := (prepState rows).groups) (k := k)
      (prepState_vals_nonempty rows)
    simpa [getVals] using this
  rw [hiff, prepState_vals]
  constructor
  · intro h
    have hne : ((rows.filter keepRow).filter (fun r => r.rkey = k)) ≠ [] := by
      intro he; exact h (by simp [he])
    rcases List.exists_mem_of_ne_nil _ hne with ⟨r, hr⟩
    simp only [List.mem_filter] at hr
    exact ⟨r, hr.1.1, hr.1.2, by simpa using hr.2⟩
  · intro ⟨r, hr, hkeep, hkey⟩
    have : r ∈ (rows.filter keepRow).filter (fun r => r.rkey = k) := by
      rw [List.mem_filter, List.mem_filter]
      exact ⟨⟨hr, hkeep⟩, by simp [hkey]⟩
    intro he
    rw [List.map_eq_nil_iff] at he
    rw [he] at this
    simp at this

theorem chartKeys_eq_sorted_keys (rows : List Row) :
    chartKeys rows =
      List.insertionSort pyStrLe ((prepState rows).groups.map Prod.fst) := by
  unfold chartKeys chartKeysSt
  apply List.filter_eq_self.mpr
  intro k hk
  have hk2 : k ∈ (prepState rows).groups.map Prod.fst :=
    (List.perm_insertionSort pyStrLe _).mem_iff.mp hk
  have hs : (alistGet (prepState rows).groups k).isSome = true :=
    (alistGet_isSome_iff _ _).mpr hk2
  have hne := (alistGet_isSome_of_mem (k := k) (prepState_vals_nonempty rows)).mp hs
  simp only [getVals] at hne ⊢
  simpa using hne

theorem chartKeys_sorted (rows : List Row) : (chartKeys rows).Sorted pyStrLe := by
  rw [chartKeys_eq_sorted_keys]
  exact List.sorted_insertionSort pyStrLe _

theorem chartKeys_nodup (rows : List Row) : (chartKeys rows).Nodup := by
  rw [chartKeys_eq_sorted_keys]
  exact (List.perm_insertionSort pyStrLe _).nodup_iff.mpr (prepState_keys_nodup rows)

theorem chartKeys_mem (rows : List Row) (k : String) :
    k ∈ chartKeys rows ↔ ∃ r ∈ rows, keepRow r = true ∧ r.rkey = k := by
  rw [chartKeys_eq_sorted_keys, (List.perm_insertionSort pyStrLe _).mem_iff]
  exact prepState_keys_mem rows k

theorem chartKeys_sorted_strict (rows : List Row) :
    (chartKeys rows).Sorted pyStrLt := by
  have hs := chartKeys_sorted rows
  have hn := chartKeys_nodup rows
  unfold List.Sorted at hs ⊢
  unfold List.Nodup at hn
  exact (hs.and hn).imp (fun h => ⟨h.1, h.2⟩)

theorem chartKeys_perm (rows rows' : List Row) (h : rows.Perm rows') :
    chartKeys rows = chartKeys rows' := by
  apply List.eq_of_perm_of_sorted _ (chartKeys_sorted rows) (chartKeys_sorted rows')
  apply (List.perm_ext_iff_of_nodup (chartKeys_nodup rows) (chartKeys_nodup rows')).mpr
  intro k
  rw [chartKeys_mem, chartKeys_mem]
  constructor
  · intro ⟨r, hr, hk⟩; exact ⟨r, h.mem_iff.mp hr, hk⟩
  · intro ⟨r, hr, hk⟩; exact ⟨r, h.mem_iff.mpr hr, hk⟩

theorem foldl_pyAdd_finite (l : List PyFloat) (h : ∀ v ∈ l, v.isFiniteB = true) :
    ∀ acc : ℚ, l.foldl pyAdd (.finite acc) = .finite (acc + (l.map PyFloat.val).sum) := by
  induction l with
  | nil => intro acc; simp
  | cons v rest ih =>
      intro acc
      rcases v with q | _ | _ | _
      · rw [List.foldl_cons]
        have : pyAdd (.finite acc) (.finite q) = .finite (acc + q) := rfl
        rw [this, ih (fun w hw => h w (List.mem_cons_of_mem _ hw))]
        simp [PyFloat.val]
        ring
      all_goals simpa [PyFloat.isFiniteB] using h _ (List.mem_cons_self _ _)

theorem pySum_finite (l : List PyFloat) (h : ∀ v ∈ l, v.isFiniteB = true) :
    pySum l = .finite ((l.map PyFloat.val).sum) := by
  unfold pySum
  rw [foldl_pyAdd_finite l h 0]
  simp

theorem npMean_finite (l : List PyFloat) (hne : l ≠ [])
    (h : ∀ v ∈ l, v.isFiniteB = true) :
    npMean l = .finite ((l.map PyFloat.val).sum / l.length) := by
  unfold npMean
  rw [pySum_finite l h]
  rcases l with _ | ⟨v, rest⟩
  · exact absurd rfl hne
  · rfl

/-- The three `prepare_chart_data` output lists, characterized: each is a map
over the ascending surviving keys. -/
theorem prepare_parts (rows : List Row) (cd : ChartData)
    (h : prepare_chart_data rows = some cd) :
    cd.labels = (chartKeys rows).map (labelFor (prepState rows)) ∧
    cd.means = (chartKeys rows).map (fun k => npMean (getVals (prepState rows) k)) ∧
    cd.raw_values = (chartKeys rows).map (getVals (prepState rows)) := by
  unfold prepare_chart_data at h
  simp only at h
  split at h
  · exact absurd h (by simp)
  · rw [← Option.some_inj.mp h]
    exact ⟨rfl, rfl, rfl⟩

/-- Lemma: `prepare_chart_data` returns `None` exactly when no measurement survives
the filter. -/
theorem prepare_none_iff (rows : List Row) :
    prepare_chart_data rows = none ↔ (rows.filter keepRow) = [] := by
  unfold prepare_chart_data
  simp only
  split
  case isTrue hg =>
    simp only [true_iff]
    rcases hf : rows.filter keepRow with _ | ⟨r, rest⟩
    · rfl
    · exfalso
      have hr : r ∈ rows.filter keepRow := by rw [hf]; exact List.mem_cons_self _ _
      rw [List.mem_filter] at hr
      have : r.rkey ∈ (prepState rows).groups.map Prod.fst :=
        (prepState_keys_mem rows r.rkey).mpr ⟨r, hr.1, hr.2, rfl⟩
      rw [hg] at this
      simp at this
  case isFalse hg =>
    constructor
    · intro hc; exact absurd hc (by simp)
    · intro hf
      rcases hgl : (prepState rows).groups with _ | ⟨p, rest⟩
      · exact absurd hgl hg
      · have hmem : p.1 ∈ (prepState rows).groups.map Prod.fst := by
          rw [hgl]; simp
        rcases (prepState_keys_mem rows p.1).mp hmem with ⟨r, hr, hkeep, _⟩
        have hmf : r ∈ rows.filter keepRow := List.mem_filter.mpr ⟨hr, hkeep⟩
        rw [hf] at hmf
        simp at hmf

/-- C6: for every input measurement list, in every input order, aggregation
iterates its output groups in strictly ascending `groupKey` order under
Python's string (code-point lexicographic) comparison, with exactly one
output group per distinct surviving key: the key sequence is sorted strictly
ascending, duplicate-free, contains exactly the surviving keys, is identical
for any permutation of the input, and each output list of
`prepare_chart_data` carries exactly one entry per key. -/
theorem C6_group_order (rows rows' : List Row) (hperm : rows.Perm rows') :
    chartKeys rows = chartKeys rows' ∧
    (chartKeys rows).Sorted pyStrLt ∧
    (chartKeys rows).Nodup ∧
    (∀ k, k ∈ chartKeys rows ↔ ∃ r ∈ rows, keepRow r = true ∧ r.rkey = k) ∧
    (∀ cd, prepare_chart_data rows = some cd →
      cd.labels.length = (chartKeys rows).length ∧
      cd.means.length = (chartKeys rows).length ∧
      cd.raw_values.length = (chartKeys rows).length) := by
  refine ⟨chartKeys_perm rows rows' hperm, chartKeys_sorted_strict rows,
    chartKeys_nodup rows, chartKeys_mem rows, ?_⟩
  intro cd hcd
  rcases prepare_parts rows cd hcd with ⟨hl, hm, hr⟩
  exact ⟨by rw [hl]; simp, by rw [hm]; simp, by rw [hr]; simp⟩

/-- Witness for C6 at a concrete input: permuting two rows leaves the key
order unchanged, and the numeric-looking keys sort lexicographically
("10" before "2"). -/
theorem C6_group_order_witness :
    ([⟨"2", "a", "1"⟩, ⟨"10", "b", "2"⟩] : List Row).Perm
        [⟨"10", "b", "2"⟩, ⟨"2", "a", "1"⟩] ∧
    chartKeys [⟨"2", "a", "1"⟩, ⟨"10", "b", "2"⟩] =
      chartKeys [⟨"10", "b", "2"⟩, ⟨"2", "a", "1"⟩] ∧
    chartKeys [⟨"2", "a", "1"⟩, ⟨"10", "b", "2"⟩] = ["10", "2"] := by
  have hperm : ([⟨"2", "a", "1"⟩, ⟨"10", "b", "2"⟩] : List Row).Perm
      [⟨"10", "b", "2"⟩, ⟨"2", "a", "1"⟩] := List.Perm.swap _ _ _
  exact ⟨hperm, (C6_group_order _ _ hperm).1, by decide⟩

/-- C7: aggregation silently drops exactly the measurements with an empty
(or all-whitespace) `groupKey` or an unparsable value cell — the empty string
and the `N/A` sentinel in any letter case parse to "no value" — so the output
is computed from the retained rows alone; and each group's label is the
sample name of the group's first retained row in input order, falling back to
`"Group <key>"` when that name is empty. -/
theorem C7_filter_and_labels (rows : List Row) :
    safe_float ("") = none ∧
    (∀ s, pyUpper s = "N/A" → safe_float s = none) ∧
    prepare_chart_data rows = prepare_chart_data (rows.filter keepRow) ∧
    (∀ cd, prepare_chart_data rows = some cd →
      cd.labels = (chartKeys rows).map (firstRetainedLabel rows)) := by
  refine ⟨by decide, ?_, ?_, ?_⟩
  · intro s hs
    unfold safe_float
    rw [if_pos (Or.inr hs)]
  · have hstate : prepState rows = prepState (rows.filter keepRow) := by
      unfold prepState
      rw [foldl_prepStep_filter]
    unfold prepare_chart_data
    rw [hstate]
  · intro cd hcd
    rcases prepare_parts rows cd hcd with ⟨hl, _, _⟩
    rw [hl]
    apply List.map_congr_left
    intro k hk
    unfold labelFor firstRetainedLabel
    rw [prepState_names]

/-- Witness for C7 at a concrete input: a row with an empty key and a row
with an `"n/a"` value are dropped; the `A` group's label is the first retained
sample name; a group whose first retained name is empty gets the synthesized
label. -/
theorem C7_filter_and_labels_witness :
    (∀ cd, prepare_chart_data
        [⟨"", "X", "5"⟩, ⟨"A", "first", "n/a"⟩, ⟨"A", "second", "1"⟩,
         ⟨"B", "", "2"⟩] = some cd →
      cd.labels = (chartKeys [⟨"", "X", "5"⟩, ⟨"A", "first", "n/a"⟩,
        ⟨"A", "second", "1"⟩, ⟨"B", "", "2"⟩]).map (firstRetainedLabel
          [⟨"", "X", "5"⟩, ⟨"A", "first", "n/a"⟩, ⟨"A", "second", "1"⟩,
           ⟨"B", "", "2"⟩])) ∧
    (prepare_chart_data [⟨"", "X", "5"⟩, ⟨"A", "first", "n/a"⟩,
        ⟨"A", "second", "1"⟩, ⟨"B", "", "2"⟩]).map ChartData.labels =
      some ["second", "Group B"] ∧
    safe_float ("N/a") = none := by
  refine ⟨(C7_filter_and_labels _).2.2.2, by decide, by decide⟩

theorem chartKeys_vals_ne_nil (rows : List Row) (k : String)
    (hk : k ∈ chartKeys rows) : getVals (prepState rows) k ≠ [] := by
  unfold chartKeys chartKeysSt at hk
  have := (List.mem_filter.mp hk).2
  simpa using this

theorem raw_values_mem (rows : List Row) (cd : ChartData)
    (hcd : prepare_chart_data rows = some cd) (vs : List PyFloat)
    (hvs : vs ∈ cd.raw_values) :
    vs ≠ [] ∧ ∃ k ∈ chartKeys rows, vs = getVals (prepState rows) k := by
  rcases prepare_parts rows cd hcd with ⟨_, _, hr⟩
  rw [hr] at hvs
  rcases List.mem_map.mp hvs with ⟨k, hk, hvk⟩
  refine ⟨?_, k, hk, hvk.symm⟩
  rw [← hvk]
  exact chartKeys_vals_ne_nil rows k hk

/-- C1: for every retained group, the aggregated `mean` is the arithmetic
mean of the group's values, and the `stds` entry is the sample standard
deviation with Bessel's `n-1` divisor when the group has at least two values,
and is the exact number `0` (not NaN, not undefined) when it has exactly one;
for a two-value group of values a and b it equals `|a-b| / √2`. -/
theorem C1_mean_and_std (rows : List Row) (cd : ChartData)
    (hcd : prepare_chart_data rows = some cd) (vs : List PyFloat)
    (hvs : vs ∈ cd.raw_values) (hfin : ∀ v ∈ vs, v.isFiniteB = true) :
    cd.means = cd.raw_values.map npMean ∧
    npMean vs = .finite ((vs.map PyFloat.val).sum / vs.length) ∧
    prepareStds rows = some (cd.raw_values.map stdEntry) ∧
    (vs.length = 1 → stdEntry vs = .finite 0) ∧
    (2 ≤ vs.length → stdEntry vs =
      .finite (Real.sqrt
        ((vs.map (fun v => ((v.val : ℝ) - sampleMeanR vs) ^ 2)).sum /
          ((vs.length : ℝ) - 1)))) ∧
    (∀ a b : ℚ, vs = [.finite a, .finite b] →
      stdEntry vs = .finite (|(a : ℝ) - (b : ℝ)| / Real.sqrt 2)) := by
  have hne := (raw_values_mem rows cd hcd vs hvs).1
  refine ⟨means_eq_map_npMean rows cd hcd, npMean_finite vs hne hfin, ?_, ?_, ?_, ?_⟩
  · unfold prepareStds
    rw [hcd]
    rfl
  · intro h1
    unfold stdEntry
    rw [h1]
    norm_num
  · intro h2
    unfold stdEntry npStdSample
    rw [if_pos (by omega), if_pos (List.all_eq_true.mpr hfin)]
  · intro a b hab
    subst hab
    unfold stdEntry npStdSample
    rw [if_pos (by norm_num), if_pos (by simp [PyFloat.isFiniteB])]
    congr 1
    have hm : sampleMeanR [PyFloat.finite a, PyFloat.finite b] =
        ((a : ℝ) + (b : ℝ)) / 2 := by
      unfold sampleMeanR
      simp [PyFloat.val]
      try ring
    rw [hm]
    have hE : ((([PyFloat.finite a, PyFloat.finite b]).map
          (fun v => ((v.val : ℝ) - ((a : ℝ) + (b : ℝ)) / 2) ^ 2)).sum /
            ((([PyFloat.finite a, PyFloat.finite b]).length : ℝ) - 1)) =
        ((a : ℝ) - (b : ℝ)) ^ 2 / 2 := by
      simp [PyFloat.val]
      try ring
    rw [hE, Real.sqrt_div (sq_nonneg _), Real.sqrt_sq_eq_abs]

/-- Witness for C1 at a concrete input: the group of values 1 and 3 has sample
standard deviation `|1-3|/√2 = √2`. -/
theorem C1_mean_and_std_witness :
    prepare_chart_data wrowsC1 = some cdC1 ∧
    [PyFloat.finite 1, PyFloat.finite 3] ∈ cdC1.raw_values ∧
    stdEntry [PyFloat.finite 1, PyFloat.finite 3] =
      .finite (|(1 : ℝ) - (3 : ℝ)| / Real.sqrt 2) := by
  have hW : prepare_chart_data wrowsC1 = some cdC1 := by rfl
  have hmem : [PyFloat.finite 1, PyFloat.finite 3] ∈ cdC1.raw_values := by decide
  refine ⟨hW, hmem, ?_⟩
  have := (C1_mean_and_std wrowsC1 cdC1 hW _ hmem (by decide)).2.2.2.2.2 1 3 rfl
  simpa using this

/-- C10: `safe_float` rejects only the empty cell and the `N/A` sentinel
before calling `float(...)`, so the texts `nan` and `inf` pass numeric
parsing as non-finite floats; such a measurement is retained by the
aggregation, the group's mean becomes non-finite, and the derived axis
ceiling (`max(means + stds) * 1.15`) becomes non-finite as well. -/
theorem C10_nonfinite_parse :
    safe_float ("nan") = some PyFloat.nan ∧
    safe_float ("inf") = some PyFloat.inf ∧
    (prepare_chart_data [rowNan]).map ChartData.raw_values =
      some [[PyFloat.nan]] ∧
    (prepare_chart_data [rowNan]).map ChartData.means = some [PyFloat.nan] ∧
    (prepare_chart_data [rowInf]).map ChartData.means = some [PyFloat.inf] ∧
    (prepare_chart_data [rowInf]).map pubChartTop = some (some RFloat.inf) := by
  have hInf : prepare_chart_data [rowInf] =
      some { labels := ["S1"], means := [PyFloat.inf]
             raw_values := [[PyFloat.inf]] } := by decide
  refine ⟨by decide, by decide, by decide, by decide, ?_, ?_⟩
  · rw [hInf]; rfl
  · rw [hInf]
    rfl

/-- C4 (the pattern-allocation defect): in `create_publication_chart` the
fill pattern is the element at `chart_index % len(HATCHES)` of the fixed
ordered hatch table — cycling, hence stable across calls and processes — but
in `create_avg_chart` of `src/chart_service.py` the pattern is selected by
`hash(title)`, a function of the per-process string-hash seed: the same
title can map to different patterns in different processes, and the chart
index plays no role. -/
theorem C4_pattern_assignment :
    (∀ i : ℕ, cgHatch (i + 15) = cgHatch i) ∧
    svcHatch 0 ("LF Media (ng/ml)") ≠ svcHatch 1 ("LF Media (ng/ml)") := by
  constructor
  · intro i
    unfold cgHatch
    have hmod : (i + 15) % HATCHES_CG.length = i % HATCHES_CG.length := by
      have hl : HATCHES_CG.length = 15 := rfl
      rw [hl]
      exact Nat.add_mod_right i 15
    rw [hmod]
  · decide

/-- C2 (amended): the later batch endpoint (`src/unnamed/part_000`) returns
one outcome per request, in input order, and the outcome at index `k` is a
function of request `k` alone — so a failure of request `k` of any kind
(unknown type, empty data, or an exception raised while building) yields an
error outcome at index `k` only and cannot affect the other outcomes. -/
theorem C2_batch_isolation (charts charts' : List ChartReq) (i : ℕ)
    (h : charts[i]? = charts'[i]?) :
    (generate_batch_p0 charts).length = charts.length ∧
    (generate_batch_p0 charts)[i]? = (charts[i]?).map processItemP0 ∧
    (generate_batch_p0 charts)[i]? = (generate_batch_p0 charts')[i]? := by
  unfold generate_batch_p0
  refine ⟨List.length_map _ _, List.getElem?_map _ _ _, ?_⟩
  rw [List.getElem?_map, List.getElem?_map, h]

/-- Witness for C2 at a concrete input: two 2-item batches agreeing at
index 0; the first outcome is the same error object in both, independent of
the differing second request. -/
theorem C2_batch_isolation_witness :
    ([reqUnknown, reqIndGood] : List ChartReq)[0]? =
      ([reqUnknown, reqBadAvg] : List ChartReq)[0]? ∧
    (generate_batch_p0 [reqUnknown, reqIndGood]).length = 2 ∧
    (generate_batch_p0 [reqUnknown, reqIndGood])[0]? =
      (generate_batch_p0 [reqUnknown, reqBadAvg])[0]? ∧
    (generate_batch_p0 [reqUnknown, reqIndGood])[0]? =
      some (.err ("Unknown type")) := by
  have h : ([reqUnknown, reqIndGood] : List ChartReq)[0]? =
      ([reqUnknown, reqBadAvg] : List ChartReq)[0]? := by decide
  have main := C2_batch_isolation [reqUnknown, reqIndGood] [reqUnknown, reqBadAvg] 0 h
  exact ⟨h, main.1, main.2.2, by decide⟩

/-- Counterexample for C2 as frozen: on the earlier batch endpoint
(`src/app.py`), a 2-request batch whose first item raises while building
returns a single all-or-nothing error document instead of a 2-element
outcome list — the healthy second request is neither processed nor
reported. -/
theorem C2_batch_counterexample :
    (generate_batch_app 0 [reqBadAvg, reqIndGood]).1 =
      Except.error ("KeyError: 'label'") := by
  rfl

/-- C9: for each of the three chart families, a request whose resolved input
set is empty produces the designated `('No data to chart', 400)` outcome of
the `/chart` endpoint — an error document, never an image (so nothing blank
is rendered), with a message distinct from every validation-failure
(`Unknown chart type`) response and a status distinct from every
unhandled-error (500) response. -/
theorem C9_no_data_outcome (g : ℕ) (d : ReqData)
    (ha : d.groups = []) (hi : d.treatments = []) (ht : d.tgroups = []) :
    (∀ typ, typ = "average" ∨ typ = "individual" ∨ typ = "timecourse" →
      (generate_chart_app g typ d).1 = .err ("No data to chart") 400) ∧
    (∀ typ m, typ = "average" ∨ typ = "individual" ∨ typ = "timecourse" →
      (generate_chart_app g typ d).1 ≠ .image m) ∧
    (∀ typ, ¬(typ = "average" ∨ typ = "individual" ∨ typ = "timecourse") →
      (generate_chart_app g typ d).1 = .err ("Unknown chart type: " ++ typ) 400 ∧
      ("No data to chart" : String) ≠ "Unknown chart type: " ++ typ) ∧
    (∀ msg, (Resp.err ("No data to chart") 400) ≠ .err msg 500) := by
  have hbuild : ∀ typ, typ = "average" ∨ typ = "individual" ∨ typ = "timecourse" →
      (generate_chart_app g typ d).1 = .err ("No data to chart") 400 := by
    intro typ htyp
    rcases htyp with h | h | h <;> subst h <;>
      simp [generate_chart_app, respOf, build_avg_app, build_ind_core,
        build_time_core, ha, hi, ht]
  refine ⟨hbuild, ?_, ?_, ?_⟩
  · intro typ m htyp
    rw [hbuild typ htyp]
    simp
  · intro typ htyp
    push_neg at htyp
    constructor
    · unfold generate_chart_app
      rw [if_neg htyp.1, if_neg htyp.2.1, if_neg htyp.2.2]
    · intro hcontra
      have hlen := congrArg String.length hcontra
      rw [String.length_append] at hlen
      have h1 : ("No data to chart" : String).length = 16 := by decide
      have h2 : ("Unknown chart type: " : String).length = 20 := by decide
      omega
  · intro msg hcontra
    have := (Resp.err.injEq _ _ _ _).mp hcontra
    omega

/-- Witness for C9 at the concrete empty request: each family yields the
`No data to chart` outcome. -/
theorem C9_no_data_outcome_witness :
    emptyData0.groups = [] ∧ emptyData0.treatments = [] ∧
    emptyData0.tgroups = [] ∧
    (generate_chart_app 0 ("average") emptyData0).1 =
      .err ("No data to chart") 400 ∧
    (generate_chart_app 0 ("individual") emptyData0).1 =
      .err ("No data to chart") 400 ∧
    (generate_chart_app 0 ("timecourse") emptyData0).1 =
      .err ("No data to chart") 400 := by
  have main := C9_no_data_outcome 0 emptyData0 (by decide) (by decide) (by decide)
  exact ⟨by decide, by decide, by decide,
    main.1 _ (Or.inl rfl), main.1 _ (Or.inr (Or.inl rfl)),
    main.1 _ (Or.inr (Or.inr rfl))⟩

theorem foldl_max_ge_init {t : List ℕ} {acc : ℕ} : acc ≤ t.foldl max acc := by
  induction t generalizing acc with
  | nil => exact Nat.le_refl acc
  | cons h rest ih =>
      rw [List.foldl_cons]
      exact le_trans (le_max_left acc h) ih

theorem foldl_max_ge_mem {t : List ℕ} {acc x : ℕ} (h : x ∈ t) : x ≤ t.foldl max acc := by
  induction t generalizing acc with
  | nil => simp at h
  | cons hd rest ih =>
      rw [List.foldl_cons]
      rcases List.mem_cons.mp h with heq | hmem
      · subst heq
        exact le_trans (le_max_right acc x) foldl_max_ge_init
      · exact ih hmem

theorem maxNatList_ge {l : List ℕ} {x : ℕ} (h : x ∈ l) : x ≤ maxNatList l := by
  rcases l with _ | ⟨hd, t⟩
  · simp at h
  · unfold maxNatList
    rcases List.mem_cons.mp h with heq | hmem
    · subst heq; exact foldl_max_ge_init
    · exact foldl_max_ge_mem hmem

/-- C8: for every individual-family input with at least one treatment, the
cluster count equals the maximum replicate count over the treatments; every
treatment's bar row is its own values padded with trailing zeros up to that
count (no slot omitted: each padded row has exactly `clusters` entries);
each bar's width is the fixed total cluster width `0.8` divided by the
treatment count; and the offsets `(i - n/2 + 1/2) * width` are symmetric
around the cluster center (the offsets at positions `i` and `n-1-i` sum to
zero). -/
theorem C8_individual_layout (ts : List Treatment) (hne : ts ≠ []) :
    (indLayout ts).clusters = maxNatList (ts.map (fun t => t.values.length)) ∧
    (indLayout ts).barWidth = (4 / 5) / (ts.length : ℚ) ∧
    (indLayout ts).series.length = ts.length ∧
    (∀ i, i < ts.length →
      ((indLayout ts).series.getD i ("", [])).2 =
        (ts.getD i ⟨"", []⟩).values ++
          List.replicate
            ((indLayout ts).clusters - (ts.getD i ⟨"", []⟩).values.length) 0) ∧
    (∀ i, i < ts.length →
      ((indLayout ts).series.getD i ("", [])).2.length = (indLayout ts).clusters) ∧
    (∀ i, i < ts.length →
      (indLayout ts).offsets.getD i 0 =
        ((i : ℚ) - (ts.length : ℚ) / 2 + 1 / 2) * (indLayout ts).barWidth) ∧
    (∀ i, i < ts.length →
      (indLayout ts).offsets.getD i 0 +
        (indLayout ts).offsets.getD (ts.length - 1 - i) 0 = 0) := by
  have hoff : ∀ i, i < ts.length →
      (indLayout ts).offsets.getD i 0 =
        ((i : ℚ) - (ts.length : ℚ) / 2 + 1 / 2) * (indLayout ts).barWidth := by
    intro i hi
    unfold indLayout
    simp only
    rw [List.getD_eq_getElem?_getD]
    simp [List.getElem?_range, hi]
  have hpad : ∀ i, i < ts.length →
      ((indLayout ts).series.getD i ("", [])).2 =
        (ts.getD i ⟨"", []⟩).values ++
          List.replicate
            ((indLayout ts).clusters - (ts.getD i ⟨"", []⟩).values.length) 0 := by
    intro i hi
    unfold indLayout
    simp only
    rw [List.getD_eq_getElem?_getD, List.getElem?_map]
    rw [List.getD_eq_getElem?_getD]
    rcases hg : ts[i]? with _ | t
    · rw [List.getElem?_eq_none_iff] at hg; omega
    · simp
  refine ⟨rfl, rfl, by simp [indLayout], hpad, ?_, hoff, ?_⟩
  · intro i hi
    rw [hpad i hi]
    have hmem : (ts.getD i ⟨"", []⟩).values.length ∈
        ts.map (fun t => t.values.length) := by
      apply List.mem_map_of_mem
      rw [List.getD_eq_getElem?_getD]
      rcases hg : ts[i]? with _ | t
      · rw [List.getElem?_eq_none_iff] at hg; omega
      · simpa using List.getElem?_mem hg
    have hle : (ts.getD i ⟨"", []⟩).values.length ≤ (indLayout ts).clusters :=
      maxNatList_ge hmem
    rw [List.length_append, List.length_replicate]
    omega
  · intro i hi
    have hpos : 0 < ts.length := List.length_pos.mpr hne
    have hi2 : ts.length - 1 - i < ts.length := by omega
    rw [hoff i hi, hoff _ hi2]
    have h1 : 1 ≤ ts.length := hpos
    have hle : i ≤ ts.length - 1 := by omega
    rw [Nat.cast_sub hle, Nat.cast_sub h1]
    push_cast
    ring

/-- Witness for C8 at the spec's end-to-end scenario B: treatments
`A = [1,2,3]` and `B = [4,5]` give 3 clusters and the padded row
`[4, 5, 0]` for `B`, with offsets symmetric around the cluster center. -/
theorem C8_individual_layout_witness :
    (([⟨"A", [1, 2, 3]⟩, ⟨"B", [4, 5]⟩] : List Treatment) ≠ []) ∧
    (indLayout [⟨"A", [1, 2, 3]⟩, ⟨"B", [4, 5]⟩]).clusters = 3 ∧
    ((indLayout [⟨"A", [1, 2, 3]⟩, ⟨"B", [4, 5]⟩]).series.getD 1 ("", [])).2 =
      [4, 5, 0] ∧
    (indLayout [⟨"A", [1, 2, 3]⟩, ⟨"B", [4, 5]⟩]).offsets.getD 0 0 +
      (indLayout [⟨"A", [1, 2, 3]⟩, ⟨"B", [4, 5]⟩]).offsets.getD 1 0 = 0 := by
  have hne : (([⟨"A", [1, 2, 3]⟩, ⟨"B", [4, 5]⟩] : List Treatment) ≠ []) := by
    decide
  have main := C8_individual_layout _ hne
  refine ⟨hne, by decide, by decide, ?_⟩
  exact main.2.2.2.2.2.2 0 (by decide)

theorem allSome_eq_map {α : Type} (l : List (Option α)) (xs : List α)
    (h : allSome l = some xs) (dflt : α) :
    xs = l.map (fun o => o.getD dflt) := by
  induction l generalizing xs with
  | nil => simp [allSome] at h; simp [← h]
  | cons o rest ih =>
      rcases o with _ | a
      · simp [allSome] at h
      · simp only [allSome] at h
        rcases hr : allSome rest with _ | ys
        · rw [hr] at h; simp at h
        · rw [hr] at h
          simp at h
          rw [← h, List.map_cons]
          simp [ih ys hr]

theorem foldl_qmax_ge_init {t : List ℚ} {acc : ℚ} : acc ≤ t.foldl max acc := by
  induction t generalizing acc with
  | nil => exact le_refl acc
  | cons h rest ih =>
      rw [List.foldl_cons]
      exact le_trans (le_max_left acc h) ih

theorem foldl_qmax_ge_mem {t : List ℚ} {acc x : ℚ} (h : x ∈ t) :
    x ≤ t.foldl max acc := by
  induction t generalizing acc with
  | nil => simp at h
  | cons hd rest ih =>
      rw [List.foldl_cons]
      rcases List.mem_cons.mp h with heq | hmem
      · subst heq
        exact le_trans (le_max_right acc x) foldl_qmax_ge_init
      · exact ih hmem

theorem qMaxList_ge {l : List ℚ} {x : ℚ} (h : x ∈ l) : x ≤ qMaxList l := by
  rcases l with _ | ⟨hd, t⟩
  · simp at h
  · unfold qMaxList
    rcases List.mem_cons.mp h with heq | hmem
    · subst heq; exact foldl_qmax_ge_init
    · exact foldl_qmax_ge_mem hmem

/-- C5 (amended): for every average-family request that builds successfully,
the vertical axis floor is exactly 0 and the ceiling is exactly
`max(mean + std) * 1.15`, a headroom factor inside `[1.15, 1.18]`; and
whenever the maximum of `mean + std` over the groups is nonnegative (as it is
for the non-negative physical quantities the service charts), the ceiling is
at least every group's `mean + std`, within ratio `1.18` of the maximum. -/
theorem C5_avg_ceiling (g : ℕ) (d : ReqData) (m : AvgModel) (g2 : ℕ)
    (hb : build_avg_app g d = (.fig (.avg m), g2)) :
    m.ylim.1 = 0 ∧
    m.means = d.groups.map (fun gr => gr.mean.getD 0) ∧
    m.stds = d.groups.map (fun gr => gr.std.getD 0) ∧
    m.ylim.2 =
      qMaxList (d.groups.map (fun gr => gr.mean.getD 0 + gr.std.getD 0)) *
        (23 / 20) ∧
    ((23 : ℚ) / 20 ≥ 23 / 20 ∧ (23 : ℚ) / 20 ≤ 59 / 50) ∧
    (0 ≤ qMaxList (d.groups.map (fun gr => gr.mean.getD 0 + gr.std.getD 0)) →
      ∀ gr ∈ d.groups,
        gr.mean.getD 0 + gr.std.getD 0 ≤ m.ylim.2 ∧
        m.ylim.2 ≤ (59 / 50) *
          qMaxList (d.groups.map (fun gr => gr.mean.getD 0 + gr.std.getD 0))) := by
  unfold build_avg_app at hb
  split at hb
  · simp at hb
  · rcases hL : allSome (d.groups.map (fun gr => gr.label)) with _ | labels
    · rw [hL] at hb; simp at hb
    · rw [hL] at hb
      rcases hM : allSome (d.groups.map (fun gr => gr.mean)) with _ | means
      · rw [hM] at hb; simp at hb
      · rw [hM] at hb
        simp only [Prod.mk.injEq] at hb
        have hfig := hb.1
        have hmeans : means = d.groups.map (fun gr => gr.mean.getD 0) := by
          have := allSome_eq_map _ _ hM 0
          rw [this, List.map_map]
          rfl
        have hm : m = { labels := labels
                        means := means
                        stds := d.groups.map (fun gr => gr.std.getD 0)
                        scatter := (match d.raw_values with
                          | none => (([] : List (List ℚ)), g)
                          | some rvs => scatterGlobalApp (1/25) rvs g).1
                        ylim := (0, qMaxList (List.zipWith (fun mu s => mu + s)
                          means (d.groups.map (fun gr => gr.std.getD 0))) * (23/20)) } := by
          have := hfig
          cases this
          rfl
        have hzip : List.zipWith (fun mu s => mu + s) means
            (d.groups.map (fun gr => gr.std.getD 0)) =
            d.groups.map (fun gr => gr.mean.getD 0 + gr.std.getD 0) := by
          rw [hmeans]
          clear hm hfig hb hM hL hmeans
          induction d.groups with
          | nil => rfl
          | cons gr rest ih => simp [ih]
        have hy1 : m.ylim.1 = 0 := by rw [hm]
        have hy2 : m.ylim.2 =
            qMaxList (d.groups.map (fun gr => gr.mean.getD 0 + gr.std.getD 0)) *
              (23 / 20) := by
          rw [hm]
          simp [hzip]
        have hstds : m.stds = d.groups.map (fun gr => gr.std.getD 0) := by rw [hm]
        have hmeans2 : m.means = d.groups.map (fun gr => gr.mean.getD 0) := by
          rw [hm]; exact hmeans
        refine ⟨hy1, hmeans2, hstds, hy2, by norm_num, ?_⟩
        intro hnn gr hgr
        rw [hy2]
        constructor
        · have hmem : gr.mean.getD 0 + gr.std.getD 0 ∈
              d.groups.map (fun gr => gr.mean.getD 0 + gr.std.getD 0) :=
            List.mem_map_of_mem _ hgr
          have hle := qMaxList_ge hmem
          calc gr.mean.getD 0 + gr.std.getD 0 ≤
              qMaxList (d.groups.map (fun gr => gr.mean.getD 0 + gr.std.getD 0)) := hle
            _ ≤ qMaxList (d.groups.map (fun gr => gr.mean.getD 0 + gr.std.getD 0)) *
                (23/20) := by nlinarith
        · nlinarith

/-- Counterexample to C5 as frozen: for the group with `mean = -10`,
`std = 0`, the resolved ceiling is `-10 * 1.15 = -11.5`, which is *below*
the group's `mean + std = -10` — the unconditional claim fails on inputs
whose maximal `mean + std` is negative. -/
theorem C5_avg_ceiling_counterexample :
    avgTopOf (build_avg_app 0 dNeg).1 = some (-23 / 2) ∧
    ¬ ((-10 : ℚ) + 0 ≤ -23 / 2) := by
  constructor
  · norm_num [build_avg_app, dNeg, emptyData0, allSome, qMaxList, avgTopOf]
  · norm_num

/-- Witness for C5 at a concrete input: `mean + std = 12` gives floor `0`
and ceiling `12 * 1.15 = 13.8 = 69/5 ≥ 12`, within ratio `1.18`. -/
theorem C5_avg_ceiling_witness :
    build_avg_app 0 dPos = (.fig (.avg mPos), 0) ∧
    (0 : ℚ) ≤ qMaxList (dPos.groups.map (fun gr => gr.mean.getD 0 + gr.std.getD 0)) ∧
    mPos.ylim.1 = 0 ∧
    (10 : ℚ) + 2 ≤ mPos.ylim.2 ∧
    mPos.ylim.2 ≤ (59 / 50) *
      qMaxList (dPos.groups.map (fun gr => gr.mean.getD 0 + gr.std.getD 0)) := by
  have hb : build_avg_app 0 dPos = (.fig (.avg mPos), 0) := by
    norm_num [build_avg_app, dPos, emptyData0, allSome, qMaxList, mPos]
  have hnn : (0 : ℚ) ≤
      qMaxList (dPos.groups.map (fun gr => gr.mean.getD 0 + gr.std.getD 0)) := by
    norm_num [dPos, emptyData0, qMaxList]
  have main := C5_avg_ceiling 0 dPos mPos 0 hb
  have hgr := main.2.2.2.2.2 hnn ⟨some "A", some 10, some 2⟩ (by
    norm_num [dPos, emptyData0])
  refine ⟨hb, hnn, main.1, ?_, ?_⟩
  · simpa using hgr.1
  · simpa using hgr.2

/-- C3 (the jitter-seeding defect): in `src/app.py`, `build_avg_chart` draws
its jitter from the unseeded process-global generator (`np.random.normal`),
so two consecutive renders of the identical request produce different
scatter offsets — the offsets are not a function of the request.  The
`src/unnamed/part_000` variant seeds `np.random.default_rng(42)` instead,
and its renders are identical regardless of the global generator state. -/
theorem C3_jitter_determinism :
    avgScatterOf (build_avg_app 0 jitterData).1 ≠
      avgScatterOf (build_avg_app (build_avg_app 0 jitterData).2 jitterData).1 ∧
    (∀ g : ℕ, ∀ d : ReqData,
      avgScatterOf (render_p0 g d).1 =
        avgScatterOf (render_p0 (render_p0 g d).2 d).1) := by
  constructor
  · norm_num [build_avg_app, jitterData, emptyData0, allSome, qMaxList,
      avgScatterOf, scatterGlobalApp, normalDraws, lcg, drawOf]
  · intro g d
    rfl
